import Mathlib

/-!
Shallow embedding of `src/train.py`, a single-file distributed-training
script (dataset + linear model construction, a `Trainer` class whose
`train` loop runs epochs and periodically checkpoints from rank 0, and a
`main` driver that reads CLI arguments and environment variables).

Tensors are modelled by their shapes (the numeric contents play no role in
any claim), side effects by an explicit trace of `Event`s, and Python
exceptions by an `Except PyError` result.  Functions that can raise return
the trace emitted up to the point of the raise together with the outcome.
-/

namespace DDPExample

/-- Python exceptions the script can raise. -/
inductive PyError where
  | zeroDivisionError
  | keyError (key : String)
  | assertionError (msg : String)
  | stopIteration
  | valueError (s : String)
deriving Repr, DecidableEq

/-- Model of a torch tensor: only its shape is tracked; the random numeric
contents are irrelevant to every property considered here. -/
structure Tensor where
  shape : List Nat
deriving Repr, DecidableEq

/-- Model of `torch.rand(n)`: a tensor of shape `[n]` (contents abstracted). -/
def torchRand (n : Nat) : Tensor := ⟨[n]⟩

/-- Model of the `MyTrainDataset` class: `self.size` and `self.data`. -/
structure MyTrainDataset where
  size : Nat
  data : List (Tensor × Tensor)
deriving Repr, DecidableEq

/-- Model of `MyTrainDataset.__init__(self, size)`:
`self.data = [(torch.rand(20), torch.rand(1)) for _ in range(size)]`. -/
def MyTrainDataset.init (size : Nat) : MyTrainDataset :=
  { size := size
    data := (List.range size).map (fun _ => (torchRand 20, torchRand 1)) }

/-- Model of `MyTrainDataset.__len__`: returns `self.size`. -/
def MyTrainDataset.len (d : MyTrainDataset) : Nat := d.size

/-- Model of `MyTrainDataset.__getitem__`: `self.data[index]`. -/
def MyTrainDataset.getitem (d : MyTrainDataset) (index : Nat) : Option (Tensor × Tensor) :=
  d.data.get? index

/-- Model of a `torch.nn.Linear` module: its feature sizes together with the
device its parameters live on (`none` = CPU, `some d` = cuda device `d`). -/
structure Linear where
  in_features : Nat
  out_features : Nat
  device : Option Nat
deriving Repr, DecidableEq

/-- Model of `torch.nn.Linear(in_features, out_features)`: a fresh module on CPU. -/
def torchNNLinear (inF outF : Nat) : Linear :=
  { in_features := inF, out_features := outF, device := none }

/-- Model of `model.to(local_rank)`.  For an `nn.Module`, `.to` moves the
parameters in place and returns the same module object. -/
def Linear.toDevice (m : Linear) (d : Nat) : Linear := { m with device := some d }

/-- Model of `model.parameters()`: the weight `[out, in]` and bias `[out]` tensors. -/
def Linear.parameters (m : Linear) : List Tensor :=
  [⟨[m.out_features, m.in_features]⟩, ⟨[m.out_features]⟩]

/-- Model of `state_dict()` on the plain `Linear` module: keys `weight`/`bias`
mapped to tensors of the corresponding shapes. -/
def Linear.state_dict (m : Linear) : List (String × Tensor) :=
  [("weight", ⟨[m.out_features, m.in_features]⟩), ("bias", ⟨[m.out_features]⟩)]

/-- Model of `torch.optim.SGD(params, lr)`: the parameter list it was built
over and its learning rate (the float literal is modelled as a rational). -/
structure SGD where
  params : List Tensor
  lr : ℚ
deriving Repr, DecidableEq

/-- Model of a `DistributedDataParallel` wrapper: the wrapped module
(`self.module`) and the `device_ids` argument. -/
structure DistributedDataParallel where
  module : Linear
  device_ids : List Nat
deriving Repr, DecidableEq

/-- Model of `state_dict()` on the DDP wrapper: the inner module's entries with
every key prefixed by `module.`. -/
def DistributedDataParallel.state_dict (m : DistributedDataParallel) : List (String × Tensor) :=
  m.module.state_dict.map (fun kv => ("module." ++ kv.1, kv.2))

/-- Model of `torch.utils.data.distributed.DistributedSampler`: the length of
the dataset it samples, the process-group world size / rank it was given (by
default read from the ambient process group), and the epoch counter set by
`set_epoch` (0 after construction).  The defaults `shuffle=True`, `seed=0`,
`drop_last=False` are fixed and left implicit. -/
structure DistributedSampler where
  dataset_size : Nat
  num_replicas : Nat
  rank : Nat
  epoch : Nat
deriving Repr, DecidableEq

/-- Model of `DistributedSampler(dataset)` with the ambient process group's
world size and rank passed explicitly. -/
def DistributedSampler.init (dataset : MyTrainDataset) (world_size pg_rank : Nat) :
    DistributedSampler :=
  { dataset_size := dataset.len, num_replicas := world_size, rank := pg_rank, epoch := 0 }

/-- Model of the sampler's per-rank shard size: with `drop_last=False` this is
`ceil(dataset_size / num_replicas)` (the sampler pads with repeated indices). -/
def DistributedSampler.num_samples (s : DistributedSampler) : Nat :=
  (s.dataset_size + s.num_replicas - 1) / s.num_replicas

/-- Model of `DistributedSampler.set_epoch(epoch)`. -/
def DistributedSampler.set_epoch (s : DistributedSampler) (e : Nat) : DistributedSampler :=
  { s with epoch := e }

/-- Model of the `DataLoader` built in `prepare_dataloader`: the dataset and
the keyword arguments passed there. -/
structure DataLoader where
  dataset : MyTrainDataset
  batch_size : Nat
  pin_memory : Bool
  shuffle : Bool
  sampler : DistributedSampler
deriving Repr, DecidableEq

/-- Model of `len(loader)`: with `drop_last=False` the loader yields
`ceil(num_samples / batch_size)` batches per epoch. -/
def DataLoader.len (dl : DataLoader) : Nat :=
  (dl.sampler.num_samples + dl.batch_size - 1) / dl.batch_size

/-- Size of the first batch the loader yields (when it yields any):
`batch_size`, capped by the shard size. -/
def DataLoader.firstBatchLen (dl : DataLoader) : Nat :=
  min dl.batch_size dl.sampler.num_samples

/-- Observable actions of the script, recorded as a trace. -/
inductive Event where
  | parseArgs
  | printWorkerInfo (node : Option String)
      (local_rank local_world_size rank world_size master_addr master_port : String)
  | initProcessGroup (backend : String)
  | loadTrainObjsDone
  | prepareDataloaderDone
  | constructTrainerDone
  | printEpochInfo (rank epoch batch_size steps : Nat)
  | setEpoch (epoch : Nat)
  | runBatch (epoch idx : Nat)
  | save (path : String) (ckp : List (String × Tensor))
  | printCheckpointSaved (epoch : Nat) (path : String)
  | destroyProcessGroup
deriving Repr, DecidableEq

/-- Model of the `Trainer` class state after `__init__` has run. -/
structure Trainer where
  local_rank : Nat
  rank : Nat
  model : DistributedDataParallel
  train_data : DataLoader
  optimizer : SGD
  save_every : Nat
deriving Repr, DecidableEq

/-- Model of `Trainer.__init__`.  Line order in the source:
`self.model = model.to(local_rank)` mutates `model` in place and returns it,
then `self.model = DistributedDataParallel(model, device_ids=[local_rank])`
rebinds `self.model` to a DDP wrapper of that same (already moved) module. -/
def Trainer.init (model : Linear) (train_data : DataLoader) (optimizer : SGD)
    (local_rank rank save_every : Nat) : Trainer :=
  let movedModel := model.toDevice local_rank
  { local_rank := local_rank
    rank := rank
    model := { module := movedModel, device_ids := [local_rank] }
    train_data := train_data
    optimizer := optimizer
    save_every := save_every }

/-- Model of Python's `%` on the nonnegative ints occurring here; raises
`ZeroDivisionError` when the modulus is 0. -/
def pyMod (a b : Nat) : Except PyError Nat :=
  if b = 0 then .error .zeroDivisionError else .ok (a % b)

/-- Model of `Trainer._run_epoch(epoch)`: first
`batch_size = len(next(iter(self.train_data))[0])` (which raises
`StopIteration` when the loader yields no batch), then the rank-0 progress
print, then `self.train_data.sampler.set_epoch(epoch)`, then the batch loop
(each iteration moves the batch to the device and calls `_run_batch`, i.e.
zero_grad / forward / loss / backward / step, all tensor-level and abstracted
into one `runBatch` event). -/
def Trainer._run_epoch (t : Trainer) (epoch : Nat) : List Event × Except PyError Trainer :=
  if t.train_data.len = 0 then ([], .error .stopIteration)
  else
    let printEvs := if t.rank = 0 then
        [Event.printEpochInfo t.rank epoch t.train_data.firstBatchLen t.train_data.len]
      else []
    let t' := { t with
      train_data := { t.train_data with sampler := t.train_data.sampler.set_epoch epoch } }
    let batchEvs := (List.range t'.train_data.len).map (fun i => Event.runBatch epoch i)
    (printEvs ++ Event.setEpoch epoch :: batchEvs, .ok t')

/-- Model of `Trainer._save_checkpoint(epoch)`: `assert self.rank == 0` (the
failing assert raises `AssertionError`), then
`torch.save(self.model.module.state_dict(), "checkpoint.pt")` and the
confirmation print. -/
def Trainer._save_checkpoint (t : Trainer) (epoch : Nat) : List Event × Except PyError Unit :=
  if t.rank = 0 then
    ([Event.save "checkpoint.pt" t.model.module.state_dict,
      Event.printCheckpointSaved epoch "checkpoint.pt"], .ok ())
  else ([], .error (.assertionError "this should not run on another rank than 0"))

/-- Model of one iteration of the loop body of `Trainer.train`:
`self._run_epoch(epoch)` followed by
`if self.rank == 0 and epoch % self.save_every == 0: self._save_checkpoint(epoch)`.
The `and` short-circuits: the modulus is evaluated only when `rank == 0`. -/
def Trainer.trainStep (t : Trainer) (epoch : Nat) : List Event × Except PyError Trainer :=
  match t._run_epoch epoch with
  | (evs, .error e) => (evs, .error e)
  | (evs, .ok t') =>
    if t'.rank = 0 then
      match pyMod epoch t'.save_every with
      | .error e => (evs, .error e)
      | .ok r =>
        if r = 0 then
          match t'._save_checkpoint epoch with
          | (evs2, .error e) => (evs ++ evs2, .error e)
          | (evs2, .ok _) => (evs ++ evs2, .ok t')
        else (evs, .ok t')
    else (evs, .ok t')

/-- Model of the loop of `Trainer.train` over a list of epoch numbers. -/
def Trainer.trainGo (t : Trainer) : List Nat → List Event × Except PyError Trainer
  | [] => ([], .ok t)
  | e :: rest =>
    match t.trainStep e with
    | (evs, .error err) => (evs, .error err)
    | (evs, .ok t') => (evs ++ (t'.trainGo rest).1, (t'.trainGo rest).2)

/-- Model of `Trainer.train(max_epochs)`: `for epoch in range(max_epochs)`. -/
def Trainer.train (t : Trainer) (max_epochs : Nat) : List Event × Except PyError Trainer :=
  t.trainGo (List.range max_epochs)

/-- Model of `load_train_objs()`. -/
def load_train_objs : MyTrainDataset × Linear × SGD :=
  let train_set := MyTrainDataset.init 2048
  let model := torchNNLinear 20 1
  let optimizer : SGD := { params := model.parameters, lr := 1 / 1000 }
  (train_set, model, optimizer)

/-- Model of `prepare_dataloader(dataset, batch_size)`.  The
`DistributedSampler(dataset)` default arguments read the world size and rank
from the ambient process group; they are passed here explicitly. -/
def prepare_dataloader (dataset : MyTrainDataset) (batch_size : Nat)
    (world_size pg_rank : Nat) : DataLoader :=
  { dataset := dataset
    batch_size := batch_size
    pin_memory := true
    shuffle := false
    sampler := DistributedSampler.init dataset world_size pg_rank }

/-- Model of the process environment `os.environ` as a partial map. -/
def Env : Type := String → Option String

/-- Model of the subscript `os.environ[k]`: raises `KeyError` when unset. -/
def environGet (env : Env) (k : String) : Except PyError String :=
  match env k with
  | some v => .ok v
  | none => .error (.keyError k)

/-- Model of `int(s)` on the nonnegative decimal strings launchers set for
rank/world-size variables; raises `ValueError` on anything else. -/
def pyIntOfString (s : String) : Except PyError Nat :=
  if s.data ≠ [] ∧ s.data.all Char.isDigit then
    .ok (s.data.foldl (fun acc c => 10 * acc + (c.toNat - 48)) 0)
  else .error (.valueError s)

/-- Model of `args = parser.parse_args()`: the three already-parsed
command-line arguments of `main` (argparse parsing itself is library code). -/
structure Args where
  total_epochs : Nat
  save_every : Nat
  batch_size : Nat
deriving Repr, DecidableEq

/-- Reads of the six mandatory environment variables, in the order the
f-string arguments of the worker-info `print` evaluate them. -/
def readWorkerInfo (env : Env) :
    Except PyError (String × String × String × String × String × String) := do
  let lr ← environGet env "LOCAL_RANK"
  let lws ← environGet env "LOCAL_WORLD_SIZE"
  let r ← environGet env "RANK"
  let ws ← environGet env "WORLD_SIZE"
  let ma ← environGet env "MASTER_ADDR"
  let mp ← environGet env "MASTER_PORT"
  pure (lr, lws, r, ws, ma, mp)

/-- The six environment variables `main` reads with `os.environ[...]`. -/
def envKeys : List String :=
  ["LOCAL_RANK", "LOCAL_WORLD_SIZE", "RANK", "WORLD_SIZE", "MASTER_ADDR", "MASTER_PORT"]

/-- Model of the last two statements of `main`:
`trainer.train(args.total_epochs)` followed by `destroy_process_group()`
(which only runs when training did not raise). -/
def mainTrain (t : Trainer) (total_epochs : Nat) (evs : List Event) :
    List Event × Except PyError Unit :=
  match t.train total_epochs with
  | (tevs, .error e) => (evs ++ tevs, .error e)
  | (tevs, .ok _) => (evs ++ tevs ++ [Event.destroyProcessGroup], .ok ())

/-- Model of `main()` after argument parsing: the worker-info `print`
(arguments evaluated left to right, `SLURMD_NODENAME` via `.get` with a
`None` default, the six others via `os.environ[...]`), then
`init_process_group(backend="nccl")` (which sizes the process group from
`WORLD_SIZE`/`RANK`), then `load_train_objs`, `prepare_dataloader`,
`local_rank = int(os.environ["LOCAL_RANK"])`, `rank = int(os.environ["RANK"])`,
the `Trainer` construction, `trainer.train(args.total_epochs)`, and finally
`destroy_process_group()`. -/
def main (args : Args) (env : Env) : List Event × Except PyError Unit :=
  let evs0 := [Event.parseArgs]
  match readWorkerInfo env with
  | .error e => (evs0, .error e)
  | .ok (lrs, lws, rs, wss, mas, mps) =>
    let evs2 := evs0 ++ [Event.printWorkerInfo (env "SLURMD_NODENAME") lrs lws rs wss mas mps,
                         Event.initProcessGroup "nccl"]
    match pyIntOfString wss, pyIntOfString rs with
    | .error e, _ => (evs2, .error e)
    | .ok _, .error e => (evs2, .error e)
    | .ok world_size, .ok pg_rank =>
      let dataset := load_train_objs.1
      let model := load_train_objs.2.1
      let optimizer := load_train_objs.2.2
      let evs3 := evs2 ++ [Event.loadTrainObjsDone]
      let train_data := prepare_dataloader dataset args.batch_size world_size pg_rank
      let evs4 := evs3 ++ [Event.prepareDataloaderDone]
      match pyIntOfString lrs, pyIntOfString rs with
      | .error e, _ => (evs4, .error e)
      | .ok _, .error e => (evs4, .error e)
      | .ok local_rank, .ok rank =>
        let trainer := Trainer.init model train_data optimizer local_rank rank args.save_every
        let evs5 := evs4 ++ [Event.constructTrainerDone]
        mainTrain trainer args.total_epochs evs5

/-- Epoch numbers of the checkpoint-saved confirmation prints in a trace. -/
def checkpointEpochs (evs : List Event) : List Nat :=
  evs.filterMap fun e => match e with
    | .printCheckpointSaved epoch _ => some epoch
    | _ => none

/-- Whether an event is a `torch.save` call. -/
def Event.isSave : Event → Bool
  | .save _ _ => true
  | _ => false

/-- The `torch.save` events of a trace. -/
def saveEvents (evs : List Event) : List Event := evs.filter Event.isSave

/-- Epoch numbers of the `set_epoch` calls in a trace. -/
def setEpochs (evs : List Event) : List Nat :=
  evs.filterMap fun e => match e with
    | .setEpoch epoch => some epoch
    | _ => none

/-- Ordering property: in the trace, every processed batch of an epoch is
preceded by the `set_epoch` call carrying that epoch number. -/
def batchAfterSetEpoch (evs : List Event) : Prop :=
  ∀ n e b, Event.runBatch e b ∈ evs.take n → Event.setEpoch e ∈ evs.take n

/-! Derived descriptions of the traces `Trainer.train` emits. -/

/-- Trace of one completed `_run_epoch` call. -/
def runEpochTrace (t : Trainer) (epoch : Nat) : List Event :=
  (if t.rank = 0 then
      [Event.printEpochInfo t.rank epoch t.train_data.firstBatchLen t.train_data.len]
    else [])
  ++ Event.setEpoch epoch ::
      (List.range t.train_data.len).map (fun i => Event.runBatch epoch i)

/-- Trace of one completed loop iteration of `train`. -/
def epochTrace (t : Trainer) (epoch : Nat) : List Event :=
  runEpochTrace t epoch
  ++ (if t.rank = 0 ∧ epoch % t.save_every = 0 then
        [Event.save "checkpoint.pt" t.model.module.state_dict,
         Event.printCheckpointSaved epoch "checkpoint.pt"]
      else [])

/-- State of the trainer after a completed loop iteration for `epoch`: only the
sampler's epoch counter changes. -/
def Trainer.withEpoch (t : Trainer) (epoch : Nat) : Trainer :=
  { t with train_data :=
      { t.train_data with sampler := t.train_data.sampler.set_epoch epoch } }

/-! Sample objects used to exercise the theorems on concrete inputs. -/

/-- A linear model as `load_train_objs` builds it. -/
def sampleModel : Linear := torchNNLinear 20 1

/-- An SGD optimizer as `load_train_objs` builds it. -/
def sampleOptimizer : SGD := { params := sampleModel.parameters, lr := 1 / 1000 }

/-- A small dataloader: 4-item dataset, world size 1, rank 0, batch size 2. -/
def sampleLoader : DataLoader := prepare_dataloader (MyTrainDataset.init 4) 2 1 0

/-- A rank-0 trainer with `save_every = 1`. -/
def sampleTrainer : Trainer := Trainer.init sampleModel sampleLoader sampleOptimizer 0 0 1

/-- A rank-0 trainer with `save_every = 0`. -/
def sampleTrainerZero : Trainer := Trainer.init sampleModel sampleLoader sampleOptimizer 0 0 0

/-- Environment variables for a single-process run, as `torchrun` would set
them. -/
def sampleEnv : Env := fun k =>
  if k = "LOCAL_RANK" then some "0"
  else if k = "LOCAL_WORLD_SIZE" then some "1"
  else if k = "RANK" then some "0"
  else if k = "WORLD_SIZE" then some "1"
  else if k = "MASTER_ADDR" then some "localhost"
  else if k = "MASTER_PORT" then some "29500"
  else none

/-- Command-line arguments for a short run. -/
def sampleArgs : Args := { total_epochs := 1, save_every := 1, batch_size := 512 }

/-- An environment with every variable unset. -/
def emptyEnv : Env := fun _ => none

theorem withEpoch_rank (t : Trainer) (e : Nat) : (t.withEpoch e).rank = t.rank := rfl

theorem withEpoch_len (t : Trainer) (e : Nat) :
    (t.withEpoch e).train_data.len = t.train_data.len := rfl

theorem withEpoch_save_every (t : Trainer) (e : Nat) :
    (t.withEpoch e).save_every = t.save_every := rfl

theorem withEpoch_model (t : Trainer) (e : Nat) : (t.withEpoch e).model = t.model := rfl

theorem epochTrace_withEpoch (t : Trainer) (e e' : Nat) :
    epochTrace (t.withEpoch e') e = epochTrace t e := rfl

theorem _run_epoch_eq (t : Trainer) (e : Nat) (hb : 0 < t.train_data.len) :
    t._run_epoch e = (runEpochTrace t e, .ok (t.withEpoch e)) := by
  unfold Trainer._run_epoch
  rw [if_neg (by omega)]
  rfl

/-- Shape of a loop iteration that completes: the dataloader yields at least
one batch, and the modulus is either positive or never evaluated. -/
theorem trainStep_eq (t : Trainer) (e : Nat) (hb : 0 < t.train_data.len)
    (hok : t.rank ≠ 0 ∨ 0 < t.save_every) :
    t.trainStep e = (epochTrace t e, .ok (t.withEpoch e)) := by
  unfold Trainer.trainStep
  rw [_run_epoch_eq t e hb]
  by_cases hr : t.rank = 0
  · have hs : ¬ t.save_every = 0 := by
      cases hok with
      | inl h => exact absurd hr h
      | inr h => omega
    by_cases hm : e % t.save_every = 0
    · simp [Trainer.withEpoch, hr, hs, hm, pyMod, Trainer._save_checkpoint, epochTrace,
        runEpochTrace]
    · simp [Trainer.withEpoch, hr, hs, hm, pyMod, epochTrace, runEpochTrace]
  · simp [Trainer.withEpoch, hr, epochTrace, runEpochTrace]

/-- Shape of a loop iteration on an empty dataloader: `StopIteration` before
any event. -/
theorem trainStep_empty (t : Trainer) (e : Nat) (hb : t.train_data.len = 0) :
    t.trainStep e = ([], .error .stopIteration) := by
  unfold Trainer.trainStep Trainer._run_epoch
  rw [if_pos hb]

/-- Shape of a rank-0 loop iteration with `save_every = 0`: the epoch completes
and then `epoch % 0` raises `ZeroDivisionError`. -/
theorem trainStep_div0 (t : Trainer) (e : Nat) (hb : 0 < t.train_data.len)
    (hr : t.rank = 0) (hs : t.save_every = 0) :
    t.trainStep e = (runEpochTrace t e, .error .zeroDivisionError) := by
  unfold Trainer.trainStep
  rw [_run_epoch_eq t e hb]
  simp [Trainer.withEpoch, hr, hs, pyMod]

theorem trainGo_eq (es : List Nat) (t : Trainer) (hb : 0 < t.train_data.len)
    (hok : t.rank ≠ 0 ∨ 0 < t.save_every) :
    t.trainGo es = (es.flatMap (epochTrace t), .ok (es.foldl Trainer.withEpoch t)) := by
  induction es generalizing t with
  | nil => simp [Trainer.trainGo]
  | cons e rest ih =>
    rw [Trainer.trainGo, trainStep_eq t e hb hok]
    have hrec := ih (t.withEpoch e) (by rw [withEpoch_len]; exact hb)
      (by rw [withEpoch_rank, withEpoch_save_every]; exact hok)
    simp only [hrec, List.flatMap_cons, List.foldl_cons]
    have hfun : epochTrace (t.withEpoch e) = epochTrace t :=
      funext fun x => epochTrace_withEpoch t x e
    rw [hfun]

theorem train_eq (t : Trainer) (max_epochs : Nat) (hb : 0 < t.train_data.len)
    (hok : t.rank ≠ 0 ∨ 0 < t.save_every) :
    t.train max_epochs = ((List.range max_epochs).flatMap (epochTrace t),
      .ok ((List.range max_epochs).foldl Trainer.withEpoch t)) :=
  trainGo_eq (List.range max_epochs) t hb hok

/-! General list bookkeeping used to evaluate the trace observers. -/

theorem filterMap_flatMap {α β γ : Type} (l : List α) (g : α → List β) (f : β → Option γ) :
    (l.flatMap g).filterMap f = l.flatMap (fun a => (g a).filterMap f) := by
  induction l with
  | nil => rfl
  | cons a l ih => simp [List.filterMap_append, ih]

theorem filter_flatMap {α β : Type} (l : List α) (g : α → List β) (f : β → Bool) :
    (l.flatMap g).filter f = l.flatMap (fun a => (g a).filter f) := by
  induction l with
  | nil => rfl
  | cons a l ih => simp [List.filter_append, ih]

theorem flatMap_ite_singleton {α β : Type} (p : α → Prop) [DecidablePred p] (c : α → β)
    (l : List α) :
    (l.flatMap fun a => if p a then [c a] else [])
      = (l.filter (fun a => decide (p a))).map c := by
  induction l with
  | nil => rfl
  | cons a l ih => by_cases h : p a <;> simp [h, ih, List.filter_cons]

theorem decide_mod_eq_beq (e k : Nat) : (decide (e % k = 0)) = (e % k == 0) := by
  by_cases h : e % k = 0 <;> simp [h]

/-! Values of the trace observers on a single epoch's trace. -/

theorem checkpointEpochs_append (xs ys : List Event) :
    checkpointEpochs (xs ++ ys) = checkpointEpochs xs ++ checkpointEpochs ys :=
  List.filterMap_append ..

theorem setEpochs_append (xs ys : List Event) :
    setEpochs (xs ++ ys) = setEpochs xs ++ setEpochs ys :=
  List.filterMap_append ..

theorem saveEvents_append (xs ys : List Event) :
    saveEvents (xs ++ ys) = saveEvents xs ++ saveEvents ys :=
  List.filter_append ..

theorem checkpointEpochs_runEpochTrace (t : Trainer) (e : Nat) :
    checkpointEpochs (runEpochTrace t e) = [] := by
  unfold runEpochTrace
  rw [checkpointEpochs_append]
  by_cases hr : t.rank = 0 <;>
    simp [hr, checkpointEpochs, List.filterMap_map, Function.comp]

theorem setEpochs_runEpochTrace (t : Trainer) (e : Nat) :
    setEpochs (runEpochTrace t e) = [e] := by
  unfold runEpochTrace
  rw [setEpochs_append]
  by_cases hr : t.rank = 0 <;>
    simp [hr, setEpochs, List.filterMap_map, Function.comp]

theorem saveEvents_runEpochTrace (t : Trainer) (e : Nat) :
    saveEvents (runEpochTrace t e) = [] := by
  unfold runEpochTrace
  rw [saveEvents_append]
  by_cases hr : t.rank = 0 <;>
    simp [hr, saveEvents, List.filter_map, Function.comp, Event.isSave]

theorem checkpointEpochs_epochTrace (t : Trainer) (e : Nat) :
    checkpointEpochs (epochTrace t e)
      = if t.rank = 0 ∧ e % t.save_every = 0 then [e] else [] := by
  unfold epochTrace
  rw [checkpointEpochs_append, checkpointEpochs_runEpochTrace]
  by_cases hc : t.rank = 0 ∧ e % t.save_every = 0 <;> simp [hc, checkpointEpochs]

theorem setEpochs_epochTrace (t : Trainer) (e : Nat) :
    setEpochs (epochTrace t e) = [e] := by
  unfold epochTrace
  rw [setEpochs_append, setEpochs_runEpochTrace]
  by_cases hc : t.rank = 0 ∧ e % t.save_every = 0 <;> simp [hc, setEpochs]

theorem saveEvents_epochTrace (t : Trainer) (e : Nat) :
    saveEvents (epochTrace t e)
      = if t.rank = 0 ∧ e % t.save_every = 0 then
          [Event.save "checkpoint.pt" t.model.module.state_dict]
        else [] := by
  unfold epochTrace
  rw [saveEvents_append, saveEvents_runEpochTrace]
  by_cases hc : t.rank = 0 ∧ e % t.save_every = 0 <;> simp [hc, saveEvents, Event.isSave]

/-! Values of the trace observers on a full successful run. -/

theorem checkpointEpochs_flatMap (l : List Nat) (g : Nat → List Event) :
    checkpointEpochs (l.flatMap g) = l.flatMap (fun e => checkpointEpochs (g e)) :=
  filterMap_flatMap ..

theorem setEpochs_flatMap (l : List Nat) (g : Nat → List Event) :
    setEpochs (l.flatMap g) = l.flatMap (fun e => setEpochs (g e)) :=
  filterMap_flatMap ..

theorem saveEvents_flatMap (l : List Nat) (g : Nat → List Event) :
    saveEvents (l.flatMap g) = l.flatMap (fun e => saveEvents (g e)) :=
  filter_flatMap ..

theorem checkpointEpochs_train (t : Trainer) (max_epochs : Nat)
    (hb : 0 < t.train_data.len) (hr : t.rank = 0) (hs : 0 < t.save_every) :
    checkpointEpochs (t.train max_epochs).1
      = (List.range max_epochs).filter (fun e => e % t.save_every == 0) := by
  rw [train_eq t max_epochs hb (Or.inr hs)]
  dsimp only
  rw [checkpointEpochs_flatMap]
  simp only [checkpointEpochs_epochTrace, hr, true_and]
  rw [flatMap_ite_singleton (p := fun e => e % t.save_every = 0) (c := fun e => e)]
  rw [List.map_id']
  exact List.filter_congr (fun a _ => decide_mod_eq_beq a t.save_every)

theorem saveEvents_train (t : Trainer) (max_epochs : Nat)
    (hb : 0 < t.train_data.len) (hr : t.rank = 0) (hs : 0 < t.save_every) :
    saveEvents (t.train max_epochs).1
      = ((List.range max_epochs).filter (fun e => e % t.save_every == 0)).map
          (fun _ => Event.save "checkpoint.pt" t.model.module.state_dict) := by
  rw [train_eq t max_epochs hb (Or.inr hs)]
  dsimp only
  rw [saveEvents_flatMap]
  simp only [saveEvents_epochTrace, hr, true_and]
  rw [flatMap_ite_singleton (p := fun e => e % t.save_every = 0)
    (c := fun _ => Event.save "checkpoint.pt" t.model.module.state_dict)]
  rw [List.filter_congr (fun a _ => decide_mod_eq_beq a t.save_every)]

theorem setEpochs_train (t : Trainer) (max_epochs : Nat)
    (hb : 0 < t.train_data.len) (hok : t.rank ≠ 0 ∨ 0 < t.save_every) :
    setEpochs (t.train max_epochs).1 = List.range max_epochs := by
  rw [train_eq t max_epochs hb hok]
  dsimp only
  rw [setEpochs_flatMap]
  simp only [setEpochs_epochTrace]
  simp

theorem saveEvents_trainGo_ne (t : Trainer) (es : List Nat) (hr : t.rank ≠ 0) :
    saveEvents (t.trainGo es).1 = [] := by
  induction es generalizing t with
  | nil => simp [Trainer.trainGo, saveEvents]
  | cons e rest ih =>
    rw [Trainer.trainGo]
    by_cases hb : t.train_data.len = 0
    · rw [trainStep_empty t e hb]
      simp [saveEvents]
    · rw [trainStep_eq t e (by omega) (Or.inl hr)]
      dsimp only
      rw [saveEvents_append, saveEvents_epochTrace]
      have hrec := ih (t.withEpoch e) (by rw [withEpoch_rank]; exact hr)
      simp [hr, hrec]

/-! Classification of the errors `train` can raise. -/

theorem trainStep_error_shape (t : Trainer) (e : Nat) (err : PyError)
    (h : (t.trainStep e).2 = .error err) :
    err = .stopIteration ∨ err = .zeroDivisionError := by
  by_cases hb : t.train_data.len = 0
  · rw [trainStep_empty t e hb] at h
    exact Or.inl (Except.error.inj h).symm
  · by_cases hr : t.rank = 0
    · by_cases hs : t.save_every = 0
      · rw [trainStep_div0 t e (by omega) hr hs] at h
        exact Or.inr (Except.error.inj h).symm
      · rw [trainStep_eq t e (by omega) (Or.inr (by omega))] at h
        simp at h
    · rw [trainStep_eq t e (by omega) (Or.inl hr)] at h
      simp at h

theorem trainGo_error_shape (t : Trainer) (es : List Nat) (err : PyError)
    (h : (t.trainGo es).2 = .error err) :
    err = .stopIteration ∨ err = .zeroDivisionError := by
  induction es generalizing t with
  | nil => simp [Trainer.trainGo] at h
  | cons e rest ih =>
    rw [Trainer.trainGo] at h
    rcases h1 : t.trainStep e with ⟨evs, res⟩
    rw [h1] at h
    cases res with
    | error e2 =>
      dsimp only at h
      have he2 : e2 = err := Except.error.inj h
      rw [← he2]
      exact trainStep_error_shape t e e2 (by rw [h1])
    | ok t' =>
      dsimp only at h
      exact ih t' h

/-- C1: for every `max_epochs ≥ 0` and `save_every ≥ 1`, a rank-0 trainer saves
a checkpoint after exactly the epochs `e < max_epochs` with
`e % save_every = 0` (so epoch 0 is always checkpointed when any epoch runs),
and a trainer of any other rank never emits a `torch.save` event. -/
theorem checkpoint_saves_exactly_on_multiples (t : Trainer) (max_epochs : Nat)
    (hs : 1 ≤ t.save_every) :
    (t.rank = 0 → 0 < t.train_data.len →
      checkpointEpochs (t.train max_epochs).1
          = (List.range max_epochs).filter (fun e => e % t.save_every == 0)
        ∧ saveEvents (t.train max_epochs).1
            = ((List.range max_epochs).filter (fun e => e % t.save_every == 0)).map
                (fun _ => Event.save "checkpoint.pt" t.model.module.state_dict)
        ∧ (1 ≤ max_epochs → 0 ∈ checkpointEpochs (t.train max_epochs).1))
    ∧ (t.rank ≠ 0 → saveEvents (t.train max_epochs).1 = []) := by
  constructor
  · intro hr hb
    have hck := checkpointEpochs_train t max_epochs hb hr (by omega)
    refine ⟨hck, saveEvents_train t max_epochs hb hr (by omega), ?_⟩
    intro h1
    rw [hck]
    exact List.mem_filter.mpr ⟨List.mem_range.mpr (by omega), by simp⟩
  · intro hr
    exact saveEvents_trainGo_ne t (List.range max_epochs) hr

/-- Witness for C1 at a concrete rank-0 trainer with `save_every = 1` and
three epochs. -/
theorem checkpoint_saves_exactly_on_multiples_witness :
    1 ≤ sampleTrainer.save_every ∧
    ((sampleTrainer.rank = 0 → 0 < sampleTrainer.train_data.len →
      checkpointEpochs (sampleTrainer.train 3).1
          = (List.range 3).filter (fun e => e % sampleTrainer.save_every == 0)
        ∧ saveEvents (sampleTrainer.train 3).1
            = ((List.range 3).filter (fun e => e % sampleTrainer.save_every == 0)).map
                (fun _ => Event.save "checkpoint.pt" sampleTrainer.model.module.state_dict)
        ∧ (1 ≤ 3 → 0 ∈ checkpointEpochs (sampleTrainer.train 3).1))
    ∧ (sampleTrainer.rank ≠ 0 → saveEvents (sampleTrainer.train 3).1 = [])) :=
  ⟨by decide, checkpoint_saves_exactly_on_multiples sampleTrainer 3 (by decide)⟩

/-- C2: the single `assert self.rank == 0` in `_save_checkpoint` never fires
during `train`: the call is guarded by `self.rank == 0`, so whenever a run of
`train` raises, for any trainer state and epoch count, the error is a
`StopIteration` or `ZeroDivisionError` from elsewhere in the loop and never an
`AssertionError`. -/
theorem save_checkpoint_assert_never_fires (t : Trainer) (max_epochs : Nat) (err : PyError)
    (h : (t.train max_epochs).2 = .error err) :
    (err = .stopIteration ∨ err = .zeroDivisionError)
      ∧ ∀ msg, err ≠ .assertionError msg := by
  unfold Trainer.train at h
  have hs := trainGo_error_shape t (List.range max_epochs) err h
  refine ⟨hs, ?_⟩
  intro msg hc
  rcases hs with h1 | h1 <;> rw [hc] at h1 <;> simp at h1

/-- Witness for C2 at a concrete trainer whose run raises (a
`ZeroDivisionError` from `save_every = 0`). -/
theorem save_checkpoint_assert_never_fires_witness :
    (sampleTrainerZero.train 1).2 = .error .zeroDivisionError ∧
    ((PyError.zeroDivisionError = .stopIteration
        ∨ PyError.zeroDivisionError = .zeroDivisionError)
      ∧ ∀ msg, PyError.zeroDivisionError ≠ .assertionError msg) :=
  ⟨rfl, save_checkpoint_assert_never_fires sampleTrainerZero 1 .zeroDivisionError rfl⟩

/-- C8: with `save_every = 0`, a rank-0 trainer completes the whole first
epoch and then raises `ZeroDivisionError` evaluating `epoch % self.save_every`,
before any checkpoint is saved; a trainer of any other rank never evaluates
the modulus (the `and` short-circuits) and trains to completion. -/
theorem save_every_zero_division (t : Trainer) (max_epochs : Nat)
    (h0 : t.save_every = 0) (hb : 0 < t.train_data.len) (h1 : 1 ≤ max_epochs) :
    (t.rank = 0 →
        t.train max_epochs = (runEpochTrace t 0, .error .zeroDivisionError)
      ∧ saveEvents (t.train max_epochs).1 = [])
    ∧ (t.rank ≠ 0 → ∃ t', (t.train max_epochs).2 = .ok t') := by
  constructor
  · intro hr
    have hmain : t.train max_epochs = (runEpochTrace t 0, .error .zeroDivisionError) := by
      unfold Trainer.train
      obtain ⟨n, rfl⟩ : ∃ n, max_epochs = n + 1 := ⟨max_epochs - 1, by omega⟩
      rw [List.range_succ_eq_map, Trainer.trainGo, trainStep_div0 t 0 hb hr h0]
    refine ⟨hmain, ?_⟩
    rw [hmain]
    exact saveEvents_runEpochTrace t 0
  · intro hr
    exact ⟨_, by rw [train_eq t max_epochs hb (Or.inl hr)]⟩

/-- Witness for C8 at a concrete rank-0 trainer with `save_every = 0` and one
epoch. -/
theorem save_every_zero_division_witness :
    sampleTrainerZero.save_every = 0 ∧ 0 < sampleTrainerZero.train_data.len ∧ (1:Nat) ≤ 1 ∧
    ((sampleTrainerZero.rank = 0 →
        sampleTrainerZero.train 1 = (runEpochTrace sampleTrainerZero 0, .error .zeroDivisionError)
      ∧ saveEvents (sampleTrainerZero.train 1).1 = [])
    ∧ (sampleTrainerZero.rank ≠ 0 → ∃ t', (sampleTrainerZero.train 1).2 = .ok t')) :=
  ⟨rfl, by decide, by decide,
    save_every_zero_division sampleTrainerZero 1 rfl (by decide) (by decide)⟩

/-! Characterization of every `torch.save` event `train` can emit. -/

theorem save_not_mem_runEpochTrace (t : Trainer) (e : Nat) (p : String)
    (c : List (String × Tensor)) : Event.save p c ∉ runEpochTrace t e := by
  unfold runEpochTrace
  by_cases hr : t.rank = 0 <;> simp [hr]

theorem save_mem_trainStep (t : Trainer) (e : Nat) (p : String) (c : List (String × Tensor))
    (h : Event.save p c ∈ (t.trainStep e).1) :
    p = "checkpoint.pt" ∧ c = t.model.module.state_dict := by
  by_cases hb : t.train_data.len = 0
  · rw [trainStep_empty t e hb] at h
    simp at h
  · by_cases hr : t.rank = 0
    · by_cases hs : t.save_every = 0
      · rw [trainStep_div0 t e (by omega) hr hs] at h
        exact absurd h (save_not_mem_runEpochTrace t e p c)
      · rw [trainStep_eq t e (by omega) (Or.inr (by omega))] at h
        dsimp only at h
        unfold epochTrace at h
        rcases List.mem_append.mp h with h2 | h2
        · exact absurd h2 (save_not_mem_runEpochTrace t e p c)
        · by_cases hm : t.rank = 0 ∧ e % t.save_every = 0
          · rw [if_pos hm] at h2
            simp at h2
            exact h2
          · rw [if_neg hm] at h2
            simp at h2
    · rw [trainStep_eq t e (by omega) (Or.inl hr)] at h
      dsimp only at h
      unfold epochTrace at h
      rcases List.mem_append.mp h with h2 | h2
      · exact absurd h2 (save_not_mem_runEpochTrace t e p c)
      · rw [if_neg (by simp [hr])] at h2
        simp at h2

theorem trainStep_ok_model (t : Trainer) (e : Nat) (t' : Trainer)
    (h : (t.trainStep e).2 = .ok t') : t'.model = t.model := by
  by_cases hb : t.train_data.len = 0
  · rw [trainStep_empty t e hb] at h
    simp at h
  · by_cases hr : t.rank = 0
    · by_cases hs : t.save_every = 0
      · rw [trainStep_div0 t e (by omega) hr hs] at h
        simp at h
      · rw [trainStep_eq t e (by omega) (Or.inr (by omega))] at h
        rw [← Except.ok.inj h]
        rfl
    · rw [trainStep_eq t e (by omega) (Or.inl hr)] at h
      rw [← Except.ok.inj h]
      rfl

theorem save_mem_trainGo (t : Trainer) (es : List Nat) (p : String)
    (c : List (String × Tensor)) (h : Event.save p c ∈ (t.trainGo es).1) :
    p = "checkpoint.pt" ∧ c = t.model.module.state_dict := by
  induction es generalizing t with
  | nil => simp [Trainer.trainGo] at h
  | cons e rest ih =>
    rw [Trainer.trainGo] at h
    rcases h1 : t.trainStep e with ⟨evs, res⟩
    rw [h1] at h
    cases res with
    | error e2 =>
      dsimp only at h
      exact save_mem_trainStep t e p c (by rw [h1]; exact h)
    | ok t' =>
      dsimp only at h
      rcases List.mem_append.mp h with h2 | h2
      · exact save_mem_trainStep t e p c (by rw [h1]; exact h2)
      · have hres := ih t' h2
        rwa [trainStep_ok_model t e t' (by rw [h1])] at hres

/-- C9: every `torch.save` event of any `train` run writes to the single fixed
path `checkpoint.pt` (so later saves overwrite earlier ones and at most one
checkpoint file can exist), and what it writes is the state dict of the
unwrapped inner module `self.model.module`, which differs from the DDP
wrapper's own state dict (whose keys carry a `module.` prefix). -/
theorem checkpoint_path_and_inner_state_dict (t : Trainer) (max_epochs : Nat)
    (p : String) (c : List (String × Tensor))
    (h : Event.save p c ∈ (t.train max_epochs).1) :
    p = "checkpoint.pt" ∧ c = t.model.module.state_dict
      ∧ c ≠ t.model.state_dict := by
  have h2 := save_mem_trainGo t (List.range max_epochs) p c h
  refine ⟨h2.1, h2.2, ?_⟩
  rw [h2.2]
  simp [Linear.state_dict, DistributedDataParallel.state_dict]

/-- Witness for C9 at a concrete rank-0 trainer that checkpoints in its only
epoch. -/
theorem checkpoint_path_and_inner_state_dict_witness :
    Event.save "checkpoint.pt" sampleTrainer.model.module.state_dict
        ∈ (sampleTrainer.train 1).1
      ∧ ("checkpoint.pt" = "checkpoint.pt"
        ∧ sampleTrainer.model.module.state_dict = sampleTrainer.model.module.state_dict
        ∧ sampleTrainer.model.module.state_dict ≠ sampleTrainer.model.state_dict) :=
  ⟨by decide,
    checkpoint_path_and_inner_state_dict sampleTrainer 1 "checkpoint.pt"
      sampleTrainer.model.module.state_dict (by decide)⟩

/-! Ordering of `set_epoch` calls and batch processing inside the trace. -/

theorem batchAfterSetEpoch_append (xs ys : List Event)
    (hx : batchAfterSetEpoch xs) (hy : batchAfterSetEpoch ys) :
    batchAfterSetEpoch (xs ++ ys) := by
  intro n e b h
  rw [List.take_append_eq_append_take] at h ⊢
  rcases List.mem_append.mp h with h2 | h2
  · exact List.mem_append.mpr (Or.inl (hx n e b h2))
  · exact List.mem_append.mpr (Or.inr (hy _ e b h2))

theorem batchAfterSetEpoch_of_noRunBatch (xs : List Event)
    (hx : ∀ e b, Event.runBatch e b ∉ xs) : batchAfterSetEpoch xs := by
  intro n e b h
  exact absurd (List.take_subset n xs h) (hx e b)

theorem batchAfterSetEpoch_setEpoch_cons (e : Nat) (L : List Event)
    (hL : ∀ e' b, Event.runBatch e' b ∈ L → e' = e) :
    batchAfterSetEpoch (Event.setEpoch e :: L) := by
  intro n e' b h
  cases n with
  | zero => simp at h
  | succ m =>
    rw [List.take_succ_cons] at h ⊢
    rcases List.mem_cons.mp h with h2 | h2
    · exact absurd h2 (by simp)
    · rw [hL e' b (List.take_subset m L h2)]
      exact List.mem_cons_self ..

theorem batchAfterSetEpoch_runEpochTrace (t : Trainer) (e : Nat) :
    batchAfterSetEpoch (runEpochTrace t e) := by
  unfold runEpochTrace
  apply batchAfterSetEpoch_append
  · apply batchAfterSetEpoch_of_noRunBatch
    intro e' b hm
    by_cases hr : t.rank = 0 <;> simp [hr] at hm
  · apply batchAfterSetEpoch_setEpoch_cons
    intro e' b hm
    rcases List.mem_map.mp hm with ⟨i, _, hi⟩
    exact ((Event.runBatch.inj hi).1).symm

theorem batchAfterSetEpoch_epochTrace (t : Trainer) (e : Nat) :
    batchAfterSetEpoch (epochTrace t e) := by
  unfold epochTrace
  apply batchAfterSetEpoch_append _ _ (batchAfterSetEpoch_runEpochTrace t e)
  apply batchAfterSetEpoch_of_noRunBatch
  intro e' b hm
  by_cases hc : t.rank = 0 ∧ e % t.save_every = 0 <;> simp [hc] at hm

theorem batchAfterSetEpoch_trainStep (t : Trainer) (e : Nat) :
    batchAfterSetEpoch (t.trainStep e).1 := by
  by_cases hb : t.train_data.len = 0
  · rw [trainStep_empty t e hb]
    exact batchAfterSetEpoch_of_noRunBatch [] (by simp)
  · by_cases hr : t.rank = 0
    · by_cases hs : t.save_every = 0
      · rw [trainStep_div0 t e (by omega) hr hs]
        exact batchAfterSetEpoch_runEpochTrace t e
      · rw [trainStep_eq t e (by omega) (Or.inr (by omega))]
        exact batchAfterSetEpoch_epochTrace t e
    · rw [trainStep_eq t e (by omega) (Or.inl hr)]
      exact batchAfterSetEpoch_epochTrace t e

theorem batchAfterSetEpoch_trainGo (t : Trainer) (es : List Nat) :
    batchAfterSetEpoch (t.trainGo es).1 := by
  induction es generalizing t with
  | nil =>
    rw [Trainer.trainGo]
    exact batchAfterSetEpoch_of_noRunBatch [] (by simp)
  | cons e rest ih =>
    rw [Trainer.trainGo]
    rcases h1 : t.trainStep e with ⟨evs, res⟩
    have hstep : batchAfterSetEpoch evs := by
      have hst := batchAfterSetEpoch_trainStep t e
      rwa [h1] at hst
    cases res with
    | error e2 => exact hstep
    | ok t' =>
      dsimp only
      exact batchAfterSetEpoch_append _ _ hstep (ih t')

/-- C4: for every `max_epochs ≥ 0`, `train` runs epochs `0, …, max_epochs-1`
in strictly increasing order (the trace's `set_epoch` calls carry exactly
`0, …, max_epochs-1` in that order), and within each epoch the distributed
sampler's `set_epoch` is called with the current epoch number before any batch
of that epoch is processed. -/
theorem epochs_in_order_and_setEpoch_before_batches (t : Trainer) (max_epochs : Nat)
    (hb : 0 < t.train_data.len) (hs : 0 < t.save_every) :
    setEpochs (t.train max_epochs).1 = List.range max_epochs
      ∧ batchAfterSetEpoch (t.train max_epochs).1 := by
  refine ⟨setEpochs_train t max_epochs hb (Or.inr hs), ?_⟩
  unfold Trainer.train
  exact batchAfterSetEpoch_trainGo t (List.range max_epochs)

/-- Witness for C4 at a concrete trainer and two epochs. -/
theorem epochs_in_order_and_setEpoch_before_batches_witness :
    0 < sampleTrainer.train_data.len ∧ 0 < sampleTrainer.save_every ∧
    (setEpochs (sampleTrainer.train 2).1 = List.range 2
      ∧ batchAfterSetEpoch (sampleTrainer.train 2).1) :=
  ⟨by decide, by decide,
    epochs_in_order_and_setEpoch_before_batches sampleTrainer 2 (by decide) (by decide)⟩

set_option maxRecDepth 20000 in
/-- C3: `load_train_objs` returns a 2048-item toy dataset whose items all pair
a 20-element input tensor with a 1-element target, a linear model from 20
input features to 1 output, and an SGD optimizer over that model's parameters
with learning rate `1e-3`. -/
theorem load_train_objs_spec :
    load_train_objs.1.size = 2048
      ∧ load_train_objs.1.data = List.replicate 2048 (Tensor.mk [20], Tensor.mk [1])
      ∧ load_train_objs.2.1 = { in_features := 20, out_features := 1, device := none }
      ∧ load_train_objs.2.2.params = load_train_objs.2.1.parameters
      ∧ load_train_objs.2.2.lr = 1 / 1000 := by
  refine ⟨rfl, ?_, rfl, rfl, rfl⟩
  show (List.range 2048).map (fun _ => (torchRand 20, torchRand 1)) = _
  have h : (fun (_ : Nat) => (torchRand 20, torchRand 1))
      = (fun (_ : Nat) => (Tensor.mk [20], Tensor.mk [1])) := rfl
  rw [h, List.map_const', List.length_range]

/-- C5: `Trainer.__init__` moves the given model to the device of
`local_rank` (`nn.Module.to` mutates in place) and leaves `self.model` a
`DistributedDataParallel` wrapper of that moved module with
`device_ids = [local_rank]`. -/
theorem trainer_init_wraps_moved_model (model : Linear) (train_data : DataLoader)
    (optimizer : SGD) (local_rank rank save_every : Nat) :
    (Trainer.init model train_data optimizer local_rank rank save_every).model
        = { module := model.toDevice local_rank, device_ids := [local_rank] }
      ∧ (Trainer.init model train_data optimizer
          local_rank rank save_every).model.module.device = some local_rank :=
  ⟨rfl, rfl⟩

/-- C7: for every dataset and batch size, `prepare_dataloader` returns a
loader over that dataset with the given batch size, `shuffle=False`,
`pin_memory=True`, and a fresh `DistributedSampler` over the dataset (sized by
`len(dataset)` and the ambient process group) as its sampler. -/
theorem prepare_dataloader_spec (dataset : MyTrainDataset)
    (batch_size world_size pg_rank : Nat) :
    prepare_dataloader dataset batch_size world_size pg_rank
      = { dataset := dataset
          batch_size := batch_size
          pin_memory := true
          shuffle := false
          sampler := { dataset_size := dataset.len, num_replicas := world_size,
                       rank := pg_rank, epoch := 0 } } := rfl

/-! Behaviour of `main`. -/

theorem pyIntOfString_cases (s : String) :
    pyIntOfString s = .error (.valueError s) ∨ ∃ n, pyIntOfString s = .ok n := by
  unfold pyIntOfString
  split
  · exact Or.inr ⟨_, rfl⟩
  · exact Or.inl rfl

theorem mainTrain_ok (t : Trainer) (n : Nat) (evs tevs : List Event) (t' : Trainer)
    (h : t.train n = (tevs, .ok t')) :
    mainTrain t n evs = (evs ++ tevs ++ [Event.destroyProcessGroup], .ok ()) := by
  unfold mainTrain
  rw [h]

theorem mainTrain_no_keyError (t : Trainer) (n : Nat) (evs : List Event) (k : String) :
    (mainTrain t n evs).2 ≠ .error (.keyError k) := by
  unfold mainTrain
  rcases htr : t.train n with ⟨tevs, res⟩
  cases res with
  | error e2 =>
    dsimp only
    intro hcon
    have he := Except.error.inj hcon
    have hshape := trainGo_error_shape t (List.range n) e2
      (by unfold Trainer.train at htr; rw [htr])
    rcases hshape with h | h <;> rw [h] at he <;> simp at he
  | ok _ =>
    dsimp only
    intro hcon
    simp at hcon

/-- C6: with the six launcher environment variables present and parseable and
positive `world_size`, `batch_size`, `save_every`, `main` performs its steps
in the fixed order: argument parsing, the worker-info print, nccl process
group initialization, construction of dataset/model/optimizer, of the
dataloader, and of the trainer, then the full training loop over
`total_epochs` epochs, and finally process group destruction. -/
theorem main_runs_steps_in_order (args : Args) (env : Env)
    (lrs lwss rs wss mas mps : String) (local_rank rank world_size : Nat)
    (h1 : env "LOCAL_RANK" = some lrs) (h2 : env "LOCAL_WORLD_SIZE" = some lwss)
    (h3 : env "RANK" = some rs) (h4 : env "WORLD_SIZE" = some wss)
    (h5 : env "MASTER_ADDR" = some mas) (h6 : env "MASTER_PORT" = some mps)
    (p1 : pyIntOfString lrs = .ok local_rank) (p2 : pyIntOfString rs = .ok rank)
    (p3 : pyIntOfString wss = .ok world_size)
    (hws : 0 < world_size) (hbs : 0 < args.batch_size) (hse : 0 < args.save_every) :
    main args env
      = ([Event.parseArgs,
          Event.printWorkerInfo (env "SLURMD_NODENAME") lrs lwss rs wss mas mps,
          Event.initProcessGroup "nccl",
          Event.loadTrainObjsDone, Event.prepareDataloaderDone, Event.constructTrainerDone]
          ++ (List.range args.total_epochs).flatMap
              (epochTrace (Trainer.init load_train_objs.2.1
                (prepare_dataloader load_train_objs.1 args.batch_size world_size rank)
                load_train_objs.2.2 local_rank rank args.save_every))
          ++ [Event.destroyProcessGroup],
        .ok ()) := by
  have hrw : readWorkerInfo env = .ok (lrs, lwss, rs, wss, mas, mps) := by
    unfold readWorkerInfo environGet
    rw [h1, h2, h3, h4, h5, h6]
    rfl
  have hlen : 0 < (Trainer.init load_train_objs.2.1
      (prepare_dataloader load_train_objs.1 args.batch_size world_size rank)
      load_train_objs.2.2 local_rank rank args.save_every).train_data.len := by
    show 0 < ((2048 + world_size - 1) / world_size + args.batch_size - 1) / args.batch_size
    have hns : 0 < (2048 + world_size - 1) / world_size := Nat.div_pos (by omega) hws
    exact Nat.div_pos (by omega) hbs
  have htrain := train_eq (Trainer.init load_train_objs.2.1
      (prepare_dataloader load_train_objs.1 args.batch_size world_size rank)
      load_train_objs.2.2 local_rank rank args.save_every)
    args.total_epochs hlen (Or.inr hse)
  unfold main
  rw [hrw]
  dsimp only
  rw [p3, p2, p1]
  dsimp only
  rw [mainTrain_ok _ _ _ _ _ htrain]
  simp

/-- Witness for C6 on a concrete single-worker environment and arguments. -/
theorem main_runs_steps_in_order_witness :
    sampleEnv "LOCAL_RANK" = some "0" ∧ sampleEnv "WORLD_SIZE" = some "1"
      ∧ pyIntOfString "0" = .ok 0 ∧ pyIntOfString "1" = .ok 1
      ∧ 0 < sampleArgs.batch_size ∧ 0 < sampleArgs.save_every
      ∧ (main sampleArgs sampleEnv).2 = .ok () :=
  ⟨rfl, rfl, rfl, rfl, by decide, by decide, by
    rw [main_runs_steps_in_order sampleArgs sampleEnv "0" "1" "0" "1" "localhost" "29500"
      0 0 1 rfl rfl rfl rfl rfl rfl rfl rfl rfl
      (by decide) (by decide) (by decide)]⟩

/-- C10: if any of the six mandatory environment variables is unset, `main`
raises `KeyError` while evaluating the worker-info print arguments, before
`init_process_group` and before any training object is constructed (the trace
stops at argument parsing); with all six present — regardless of
`SLURMD_NODENAME`, which is read with a `None` default — no run of `main`
ever raises `KeyError`. -/
theorem missing_env_key_raises_keyerror (args : Args) (env : Env) :
    ((∃ k ∈ envKeys, env k = none) →
      (∃ k ∈ envKeys, env k = none ∧ (main args env).2 = .error (.keyError k))
        ∧ (main args env).1 = [Event.parseArgs])
    ∧ ((∀ k ∈ envKeys, (env k).isSome) →
      ∀ k, (main args env).2 ≠ .error (.keyError k)) := by
  constructor
  · intro hmiss
    cases hLR : env "LOCAL_RANK" with
    | none =>
      have hm : main args env = ([Event.parseArgs], .error (.keyError "LOCAL_RANK")) := by
        unfold main readWorkerInfo environGet
        rw [hLR]
        rfl
      exact ⟨⟨"LOCAL_RANK", by simp [envKeys], hLR, by rw [hm]⟩, by rw [hm]⟩
    | some v1 =>
      cases hLWS : env "LOCAL_WORLD_SIZE" with
      | none =>
        have hm : main args env = ([Event.parseArgs], .error (.keyError "LOCAL_WORLD_SIZE")) := by
          unfold main readWorkerInfo environGet
          rw [hLR, hLWS]
          rfl
        exact ⟨⟨"LOCAL_WORLD_SIZE", by simp [envKeys], hLWS, by rw [hm]⟩, by rw [hm]⟩
      | some v2 =>
        cases hR : env "RANK" with
        | none =>
          have hm : main args env = ([Event.parseArgs], .error (.keyError "RANK")) := by
            unfold main readWorkerInfo environGet
            rw [hLR, hLWS, hR]
            rfl
          exact ⟨⟨"RANK", by simp [envKeys], hR, by rw [hm]⟩, by rw [hm]⟩
        | some v3 =>
          cases hW : env "WORLD_SIZE" with
          | none =>
            have hm : main args env = ([Event.parseArgs], .error (.keyError "WORLD_SIZE")) := by
              unfold main readWorkerInfo environGet
              rw [hLR, hLWS, hR, hW]
              rfl
            exact ⟨⟨"WORLD_SIZE", by simp [envKeys], hW, by rw [hm]⟩, by rw [hm]⟩
          | some v4 =>
            cases hMA : env "MASTER_ADDR" with
            | none =>
              have hm : main args env
                  = ([Event.parseArgs], .error (.keyError "MASTER_ADDR")) := by
                unfold main readWorkerInfo environGet
                rw [hLR, hLWS, hR, hW, hMA]
                rfl
              exact ⟨⟨"MASTER_ADDR", by simp [envKeys], hMA, by rw [hm]⟩, by rw [hm]⟩
            | some v5 =>
              cases hMP : env "MASTER_PORT" with
              | none =>
                have hm : main args env
                    = ([Event.parseArgs], .error (.keyError "MASTER_PORT")) := by
                  unfold main readWorkerInfo environGet
                  rw [hLR, hLWS, hR, hW, hMA, hMP]
                  rfl
                exact ⟨⟨"MASTER_PORT", by simp [envKeys], hMP, by rw [hm]⟩, by rw [hm]⟩
              | some v6 =>
                exfalso
                rcases hmiss with ⟨k, hk, hnone⟩
                simp [envKeys] at hk
                rcases hk with rfl | rfl | rfl | rfl | rfl | rfl <;> simp_all
  · intro hall k hcon
    obtain ⟨v1, h1⟩ := Option.isSome_iff_exists.mp (hall "LOCAL_RANK" (by simp [envKeys]))
    obtain ⟨v2, h2⟩ :=
      Option.isSome_iff_exists.mp (hall "LOCAL_WORLD_SIZE" (by simp [envKeys]))
    obtain ⟨v3, h3⟩ := Option.isSome_iff_exists.mp (hall "RANK" (by simp [envKeys]))
    obtain ⟨v4, h4⟩ := Option.isSome_iff_exists.mp (hall "WORLD_SIZE" (by simp [envKeys]))
    obtain ⟨v5, h5⟩ := Option.isSome_iff_exists.mp (hall "MASTER_ADDR" (by simp [envKeys]))
    obtain ⟨v6, h6⟩ := Option.isSome_iff_exists.mp (hall "MASTER_PORT" (by simp [envKeys]))
    have hrw : readWorkerInfo env = .ok (v1, v2, v3, v4, v5, v6) := by
      unfold readWorkerInfo environGet
      rw [h1, h2, h3, h4, h5, h6]
      rfl
    unfold main at hcon
    rw [hrw] at hcon
    dsimp only at hcon
    rcases pyIntOfString_cases v4 with hw | ⟨nw, hw⟩
    · rw [hw] at hcon
      simp at hcon
    · rcases pyIntOfString_cases v3 with hr3 | ⟨nr, hr3⟩
      · rw [hw, hr3] at hcon
        simp at hcon
      · rw [hw, hr3] at hcon
        dsimp only at hcon
        rcases pyIntOfString_cases v1 with hl | ⟨nl, hl⟩
        · rw [hl] at hcon
          simp at hcon
        · rw [hl] at hcon
          dsimp only at hcon
          exact absurd hcon (mainTrain_no_keyError _ _ _ k)

/-- Witness for C10 on the empty environment, where every variable is unset. -/
theorem missing_env_key_raises_keyerror_witness :
    (∃ k ∈ envKeys, emptyEnv k = none) ∧
    ((∃ k ∈ envKeys, emptyEnv k = none
        ∧ (main sampleArgs emptyEnv).2 = .error (.keyError k))
      ∧ (main sampleArgs emptyEnv).1 = [Event.parseArgs]) :=
  ⟨⟨"LOCAL_RANK", by simp [envKeys], rfl⟩,
    (missing_env_key_raises_keyerror sampleArgs emptyEnv).1
      ⟨"LOCAL_RANK", by simp [envKeys], rfl⟩⟩

end DDPExample
